import Mathlib

/-!
Verification of the tracegen core (`internal/tracegen/config.go`) of the
jaeger synthetic trace generator.

Durations (`time.Duration`) and Go `int` are modelled as `Int`
(nanoseconds for durations).  The coordinator `Run` is embedded as a pure
function producing, besides the returned error and the final
configuration, the list of spawned workers and the ordered list of
observable coordinator actions (flag initialization, spawns, sleep, flag
store, wait-group join).  The worker loop `simulateTraces` lives in
`worker.go`, which is not part of the sources at hand; it is modelled
from the spec (see the doc comments below).
-/

namespace Tracegen

/-- `time.Microsecond` in nanoseconds. -/
def microsecond : Int := 1000

/-- The `Config` struct of `config.go`: describes the test scenario. -/
structure Config where
  Workers : Int
  Traces : Int
  Marshal : Bool
  Debug : Bool
  Firehose : Bool
  Pause : Int
  Duration : Int
  Service : String
  TraceExporter : String
deriving DecidableEq

/-- Default value carried by a registered command-line flag. -/
inductive FlagDefault where
  | intDef : Int → FlagDefault
  | boolDef : Bool → FlagDefault
  | durationDef : Int → FlagDefault
  | stringDef : String → FlagDefault
deriving DecidableEq

/-- The flags registered by `Config.Flags`, in registration order, each
with its name and default value (from `config.go`, lines 42-51). -/
def Config.flagsRegistered : List (String × FlagDefault) :=
  [ ("workers", FlagDefault.intDef 1),
    ("traces", FlagDefault.intDef 1),
    ("debug", FlagDefault.boolDef false),
    ("firehose", FlagDefault.boolDef false),
    ("pause", FlagDefault.durationDef microsecond),
    ("duration", FlagDefault.durationDef 0),
    ("service", FlagDefault.stringDef "tracegen"),
    ("trace-exporter", FlagDefault.stringDef "jaeger") ]

/-- Effect of registering one flag on the bound `Config` field when the
flag is left at its default (mirrors which field each `fs.XVar` call in
`Config.Flags` binds). A name/kind pair that was never registered leaves
the configuration unchanged. -/
def setFlagDefault (c : Config) : String × FlagDefault → Config
  | ("workers", FlagDefault.intDef n) => { c with Workers := n }
  | ("traces", FlagDefault.intDef n) => { c with Traces := n }
  | ("debug", FlagDefault.boolDef b) => { c with Debug := b }
  | ("firehose", FlagDefault.boolDef b) => { c with Firehose := b }
  | ("pause", FlagDefault.durationDef d) => { c with Pause := d }
  | ("duration", FlagDefault.durationDef d) => { c with Duration := d }
  | ("service", FlagDefault.stringDef s) => { c with Service := s }
  | ("trace-exporter", FlagDefault.stringDef s) => { c with TraceExporter := s }
  | _ => c

/-- The configuration after `Config.Flags` registers every flag and the
flag set is parsed with an empty command line: every registered flag
takes its default. -/
def Config.applyFlagDefaults (c : Config) : Config :=
  Config.flagsRegistered.foldl setFlagDefault c

/-- The `worker` struct of `config.go` (lines 65-77): the values a worker
is bound to at spawn time.  The shared references (`tracer`, `running`,
`wg`, base `logger`) are common to the whole run and are represented by
the run-level semantics; `loggerWorker` records the worker-identity
field the coordinator annotates the logger with
(`logger.With(zap.Int("worker", i))`). -/
structure Worker where
  id : Int
  traces : Int
  marshal : Bool
  debug : Bool
  firehose : Bool
  pause : Int
  duration : Int
  loggerWorker : Int
deriving DecidableEq

/-- The worker value built for loop index `i` in `Run`'s spawn loop. -/
def mkWorker (c : Config) (i : Nat) : Worker :=
  { id := (i : Int)
    traces := c.Traces
    marshal := c.Marshal
    debug := c.Debug
    firehose := c.Firehose
    pause := c.Pause
    duration := c.Duration
    loggerWorker := (i : Int) }

/-- The workers spawned by `Run`'s loop `for i := 0; i < c.Workers; i++`
(zero iterations when `c.Workers <= 0`). -/
def spawnedWorkers (c : Config) : List Worker :=
  (List.range c.Workers.toNat).map (mkWorker c)

/-- Observable coordinator actions of `Run`, in program order. -/
inductive Event where
  | initFlag : Bool → Event
  | spawn : Worker → Event
  | sleep : Int → Event
  | storeFlag : Bool → Event
  | wait : Event
deriving DecidableEq

/-- Whether an event is a write to the shared `running` flag after its
initialization (`atomic.StoreUint32`). -/
def isFlagWrite : Event → Bool
  | Event.storeFlag _ => true
  | _ => false

/-- Whether an event spawns a worker goroutine. -/
def isSpawn : Event → Bool
  | Event.spawn _ => true
  | _ => false

/-- Result of `Run`: the error value, the configuration as left behind
through the caller's pointer, the spawned workers, and the ordered
coordinator actions. -/
structure RunResult where
  finalConfig : Config
  err : Option String
  spawned : List Worker
  events : List Event
deriving DecidableEq

/-- The error message of `Run`'s validation failure. -/
def errMsg : String := "either `traces` or `duration` must be greater than 0"

/-- `Run` from `config.go` (lines 54-87), embedded as a pure function.
Mirrors the source order: normalize `Traces` when `Duration > 0`,
otherwise fail when `Traces <= 0`; initialize `running = 1`; spawn the
workers; in duration mode sleep then store `running = 0`; join. -/
def Run (c0 : Config) : RunResult :=
  if 0 < c0.Duration then
    let c := { c0 with Traces := 0 }
    let ws := spawnedWorkers c
    { finalConfig := c
      err := none
      spawned := ws
      events := Event.initFlag true ::
        (ws.map Event.spawn ++ [Event.sleep c.Duration, Event.storeFlag false, Event.wait]) }
  else if c0.Traces ≤ 0 then
    { finalConfig := c0, err := some errMsg, spawned := [], events := [] }
  else
    let ws := spawnedWorkers c0
    { finalConfig := c0
      err := none
      spawned := ws
      events := Event.initFlag true :: (ws.map Event.spawn ++ [Event.wait]) }

/-- One span of a synthetic trace: its name, the name of its parent span
(none for the root), and the two boolean attributes attached to it. -/
structure Span where
  name : String
  parent : Option String
  debug : Bool
  firehose : Bool
deriving DecidableEq

/-- Modelled from the spec: the per-iteration behavior of
`worker.simulateTraces` (`worker.go`, absent from the sources at hand),
spec section 4.3: one root span named "lead" carrying the debug and
firehose attributes, then two child spans "sub1" and "sub2" parented to
the root, each carrying the same two attributes. -/
def emitOneTrace (w : Worker) : List Span :=
  [ { name := "lead", parent := none, debug := w.debug, firehose := w.firehose },
    { name := "sub1", parent := some "lead", debug := w.debug, firehose := w.firehose },
    { name := "sub2", parent := some "lead", debug := w.debug, firehose := w.firehose } ]

/-- Modelled from the spec: the loop of `worker.simulateTraces`
(`worker.go`, absent from the sources at hand), spec section 4.3.  The
loop condition, evaluated before each iteration, continues while
`(plannedIterations == 0 and the shared running flag is true) or
(iterationCounter < plannedIterations)`.  `flag k` gives the value of
the shared `running` flag observed at the k-th loop-condition check;
`fuel` bounds the number of iterations unfolded (the Go loop has no
such bound; every claim is stated for sufficiently large fuel). -/
def simulateTraces (w : Worker) (flag : Nat → Bool) : Nat → Nat → List (List Span)
  | 0, _ => []
  | fuel + 1, i =>
    if (w.traces = 0 ∧ flag i = true) ∨ (i : Int) < w.traces then
      emitOneTrace w :: simulateTraces w flag fuel (i + 1)
    else []

/-- All traces emitted by one call to `Run`: the concatenation of each
spawned worker's emissions, every worker reading the one shared flag. -/
def runEmitted (c : Config) (flag : Nat → Bool) (fuel : Nat) : List (List Span) :=
  ((Run c).spawned.map fun w => simulateTraces w flag fuel 0).flatten

/-- A configuration that fails validation (no positive duration, no
positive trace count). -/
def cBad : Config :=
  { Workers := 1, Traces := 0, Marshal := false, Debug := false, Firehose := false,
    Pause := microsecond, Duration := 0, Service := "tracegen", TraceExporter := "jaeger" }

/-- A duration-mode configuration (with a positive `Traces` that the
normalization must override). -/
def cDur : Config := { cBad with Workers := 2, Traces := 5, Duration := 200000000 }

/-- A count-mode configuration: 2 workers, 3 traces each. -/
def cCount : Config := { cBad with Workers := 2, Traces := 3, Debug := true }

/-- A count-mode configuration with zero workers. -/
def cNoW : Config := { cBad with Workers := 0, Traces := 3 }

/-- A duration-mode configuration with a negative worker count. -/
def cNoWDur : Config := { cBad with Workers := -3, Duration := 50 }

/-- A count-mode example worker (3 planned iterations). -/
def wCountEx : Worker := mkWorker cCount 0

/-- A duration-mode example worker (0 planned iterations). -/
def wDurEx : Worker := mkWorker { cDur with Traces := 0 } 1

theorem spawnedWorkers_length (c : Config) :
    (spawnedWorkers c).length = c.Workers.toNat := by
  simp [spawnedWorkers]

theorem spawn_events_no_flag_write (ws : List Worker) :
    ∀ e ∈ ws.map Event.spawn, isFlagWrite e = false := by
  intro e he
  obtain ⟨w, _, rfl⟩ := List.mem_map.mp he
  rfl

theorem flatten_replicate {α : Type} (n m : Nat) (a : α) :
    (List.replicate n (List.replicate m a)).flatten = List.replicate (n * m) a := by
  induction n with
  | zero => simp
  | succ k ih =>
    rw [List.replicate_succ, List.flatten_cons, ih]
    rw [show (k + 1) * m = m + k * m by ring, List.replicate_add]

theorem simulateTraces_count_mode (w : Worker) (flag : Nat → Bool) (hw : w.traces ≠ 0) :
    ∀ fuel i, w.traces.toNat - i ≤ fuel →
      simulateTraces w flag fuel i = List.replicate (w.traces.toNat - i) (emitOneTrace w) := by
  intro fuel
  induction fuel with
  | zero =>
    intro i hi
    have h0 : w.traces.toNat - i = 0 := Nat.le_zero.mp hi
    simp [simulateTraces, h0]
  | succ f ih =>
    intro i hi
    by_cases hlt : (i : Int) < w.traces
    · have hsub : w.traces.toNat - i = (w.traces.toNat - (i + 1)) + 1 := by omega
      simp only [simulateTraces]
      rw [if_pos (Or.inr hlt), ih (i + 1) (by omega), hsub, List.replicate_succ]
    · have h0 : w.traces.toNat - i = 0 := by omega
      simp only [simulateTraces]
      rw [if_neg, h0, List.replicate_zero]
      rintro (⟨h, _⟩ | h)
      · exact hw h
      · exact hlt h

theorem simulateTraces_duration_mode (w : Worker) (flag : Nat → Bool) (hw : w.traces = 0) :
    ∀ k i fuel, (∀ j, j < k → flag (i + j) = true) → flag (i + k) = false → k < fuel →
      simulateTraces w flag fuel i = List.replicate k (emitOneTrace w) := by
  intro k
  induction k with
  | zero =>
    intro i fuel htrue hfalse hfuel
    obtain ⟨f, rfl⟩ : ∃ f, fuel = f + 1 := ⟨fuel - 1, by omega⟩
    simp only [Nat.add_zero] at hfalse
    simp only [simulateTraces]
    rw [if_neg, List.replicate_zero]
    rintro (⟨_, hf⟩ | h)
    · rw [hfalse] at hf
      exact Bool.false_ne_true hf
    · rw [hw] at h
      omega
  | succ n ih =>
    intro i fuel htrue hfalse hfuel
    obtain ⟨f, rfl⟩ : ∃ f, fuel = f + 1 := ⟨fuel - 1, by omega⟩
    have hfi : flag i = true := by simpa using htrue 0 (Nat.succ_pos n)
    simp only [simulateTraces]
    rw [if_pos (Or.inl ⟨hw, hfi⟩), List.replicate_succ]
    congr 1
    apply ih (i + 1) f
    · intro j hj
      rw [show i + 1 + j = i + (j + 1) by omega]
      exact htrue (j + 1) (by omega)
    · rw [show i + 1 + n = i + (n + 1) by omega]
      exact hfalse
    · omega

/-- C1: Run(config, tracer, logger) returns an error exactly when
config.Duration <= 0 and config.Traces <= 0; on this error path it
returns immediately: zero workers are spawned, no coordinator action is
taken, and the configuration is left unchanged.  For every configuration
with Duration > 0, Run returns no error regardless of Traces. -/
theorem run_error_characterization (c : Config) :
    ((Run c).err ≠ none ↔ c.Duration ≤ 0 ∧ c.Traces ≤ 0) ∧
    (c.Duration ≤ 0 ∧ c.Traces ≤ 0 →
      (Run c).err = some errMsg ∧ (Run c).spawned = [] ∧ (Run c).events = [] ∧
        (Run c).finalConfig = c) ∧
    (0 < c.Duration → (Run c).err = none) := by
  unfold Run
  split_ifs with h1 h2 <;> simp_all

theorem run_error_characterization_witness :
    ((Run cBad).err = some errMsg ∧ (Run cBad).spawned = [] ∧ (Run cBad).events = [] ∧
      (Run cBad).finalConfig = cBad) ∧ (Run cDur).err = none :=
  ⟨(run_error_characterization cBad).2.1 ⟨by decide, by decide⟩,
   (run_error_characterization cDur).2.2 (by decide)⟩

/-- C5: if Duration > 0, Run sets Traces to 0 before spawning, so every
spawned worker receives a planned iteration count of 0, overriding any
positive Traces value; the normalization is skipped exactly when
Duration <= 0, in which case the workers receive the original Traces. -/
theorem run_normalizes_traces (c : Config) :
    (0 < c.Duration →
      (Run c).finalConfig.Traces = 0 ∧ ∀ w ∈ (Run c).spawned, w.traces = 0) ∧
    (c.Duration ≤ 0 →
      (Run c).finalConfig.Traces = c.Traces ∧ ∀ w ∈ (Run c).spawned, w.traces = c.Traces) := by
  unfold Run
  split_ifs with h1 h2 <;>
    simp_all [spawnedWorkers, mkWorker]

theorem run_normalizes_traces_witness :
    (Run cDur).finalConfig.Traces = 0 ∧ (Run cCount).finalConfig.Traces = cCount.Traces :=
  ⟨((run_normalizes_traces cDur).1 (by decide)).1,
   ((run_normalizes_traces cCount).2 (by decide)).1⟩

/-- C9: Run mutates no field of the caller-supplied Config other than
Traces, and the configuration left behind has Traces = 0 exactly when
Duration > 0 (otherwise Traces is unchanged); on the error path the
whole configuration is unchanged. -/
theorem run_frame_condition (c : Config) :
    (Run c).finalConfig.Workers = c.Workers ∧
    (Run c).finalConfig.Marshal = c.Marshal ∧
    (Run c).finalConfig.Debug = c.Debug ∧
    (Run c).finalConfig.Firehose = c.Firehose ∧
    (Run c).finalConfig.Pause = c.Pause ∧
    (Run c).finalConfig.Duration = c.Duration ∧
    (Run c).finalConfig.Service = c.Service ∧
    (Run c).finalConfig.TraceExporter = c.TraceExporter ∧
    (Run c).finalConfig.Traces = (if 0 < c.Duration then 0 else c.Traces) ∧
    ((Run c).err ≠ none → (Run c).finalConfig = c) := by
  unfold Run
  split_ifs with h1 h2 <;> simp_all

theorem run_frame_condition_witness : (Run cBad).finalConfig = cBad :=
  (run_frame_condition cBad).2.2.2.2.2.2.2.2.2 (by decide)

/-- C2: for every configuration with Traces = N > 0, Duration = 0 and
Workers = W >= 0, Run reports no error and the workers together emit
exactly W * N synthetic traces, each consisting of a root span "lead"
and two child spans "sub1" and "sub2" parented to the root, every span
carrying the configured debug and firehose attribute values (stated for
every flag schedule and sufficient fuel). -/
theorem run_count_mode_emission (c : Config) (flag : Nat → Bool) (fuel : Nat)
    (hN : 0 < c.Traces) (hD : c.Duration = 0) (hW : 0 ≤ c.Workers)
    (hfuel : c.Traces.toNat ≤ fuel) :
    (Run c).err = none ∧
    ((runEmitted c flag fuel).length : Int) = c.Workers * c.Traces ∧
    ∀ t ∈ runEmitted c flag fuel,
      t = [{ name := "lead", parent := none, debug := c.Debug, firehose := c.Firehose },
           { name := "sub1", parent := some "lead", debug := c.Debug, firehose := c.Firehose },
           { name := "sub2", parent := some "lead", debug := c.Debug, firehose := c.Firehose }] := by
  have hD' : ¬ 0 < c.Duration := by omega
  have hT' : ¬ c.Traces ≤ 0 := by omega
  have herr : (Run c).err = none := by simp [Run, hD', hT']
  have hspawned : (Run c).spawned = spawnedWorkers c := by simp [Run, hD', hT']
  have hone : ∀ i : Nat, simulateTraces (mkWorker c i) flag fuel 0
      = List.replicate c.Traces.toNat (emitOneTrace (mkWorker c 0)) := by
    intro i
    rw [simulateTraces_count_mode (mkWorker c i) flag (by simp only [mkWorker]; omega)
      fuel 0 (by simp only [mkWorker, Nat.sub_zero]; exact hfuel)]
    rfl
  have hemit : runEmitted c flag fuel
      = List.replicate (c.Workers.toNat * c.Traces.toNat) (emitOneTrace (mkWorker c 0)) := by
    unfold runEmitted
    rw [hspawned]
    unfold spawnedWorkers
    rw [List.map_map]
    rw [show ((fun w => simulateTraces w flag fuel 0) ∘ mkWorker c)
        = fun _ : Nat => List.replicate c.Traces.toNat (emitOneTrace (mkWorker c 0)) from
      funext fun i => hone i]
    rw [List.map_const', List.length_range, flatten_replicate]
  refine ⟨herr, ?_, ?_⟩
  · rw [hemit, List.length_replicate]
    push_cast
    rw [Int.toNat_of_nonneg hW, Int.toNat_of_nonneg hN.le]
  · intro t ht
    rw [hemit] at ht
    exact List.eq_of_mem_replicate ht

theorem run_count_mode_emission_witness :
    (Run cCount).err = none ∧
    ((runEmitted cCount (fun _ => true) 3).length : Int) = cCount.Workers * cCount.Traces :=
  ⟨(run_count_mode_emission cCount (fun _ => true) 3
      (by decide) (by decide) (by decide) (by decide)).1,
   (run_count_mode_emission cCount (fun _ => true) 3
      (by decide) (by decide) (by decide) (by decide)).2.1⟩

/-- C3: on every valid configuration the shared running flag is
initialized to true before any worker is spawned (it is the first
coordinator action); when Duration > 0 the only write to the flag after
its initialization is a single store of false placed immediately after
the sleep of exactly Duration, itself after all the spawns; when
Duration <= 0 the flag is never written after its initialization. -/
theorem run_stop_signal (c : Config) :
    (0 < c.Duration ∨ 0 < c.Traces →
      (Run c).events.head? = some (Event.initFlag true)) ∧
    (0 < c.Duration →
      (Run c).events.filter isFlagWrite = [Event.storeFlag false] ∧
      ∃ pre, (Run c).events
          = Event.initFlag true ::
            (pre ++ [Event.sleep c.Duration, Event.storeFlag false, Event.wait]) ∧
        ∀ e ∈ pre, isSpawn e = true ∧ isFlagWrite e = false) ∧
    (c.Duration ≤ 0 → ∀ e ∈ (Run c).events, isFlagWrite e = false) := by
  by_cases h1 : 0 < c.Duration
  · have hrun : (Run c).events = Event.initFlag true ::
        ((spawnedWorkers { c with Traces := 0 }).map Event.spawn
          ++ [Event.sleep c.Duration, Event.storeFlag false, Event.wait]) := by
      simp [Run, h1]
    refine ⟨fun _ => by rw [hrun]; rfl, fun _ => ⟨?_, ?_⟩, fun h => absurd h1 (by omega)⟩
    · have hA : ((spawnedWorkers { c with Traces := 0 }).map Event.spawn).filter
          isFlagWrite = [] :=
        List.filter_eq_nil_iff.mpr (fun e he => by
          simp [spawn_events_no_flag_write _ e he])
      rw [hrun]
      show (((spawnedWorkers { c with Traces := 0 }).map Event.spawn
          ++ [Event.sleep c.Duration, Event.storeFlag false, Event.wait]).filter isFlagWrite)
        = [Event.storeFlag false]
      rw [List.filter_append, hA]
      rfl
    · refine ⟨(spawnedWorkers { c with Traces := 0 }).map Event.spawn, by rw [hrun], ?_⟩
      intro e he
      obtain ⟨w, _, rfl⟩ := List.mem_map.mp he
      exact ⟨rfl, rfl⟩
  · by_cases h2 : c.Traces ≤ 0
    · have hrun : (Run c).events = [] := by simp [Run, h1, h2]
      refine ⟨fun hv => by exfalso; rcases hv with h | h <;> omega,
        fun hd => absurd hd h1, fun _ e he => ?_⟩
      rw [hrun] at he
      simp at he
    · have hrun : (Run c).events = Event.initFlag true ::
          ((spawnedWorkers c).map Event.spawn ++ [Event.wait]) := by
        simp [Run, h1, h2]
      refine ⟨fun _ => by rw [hrun]; rfl, fun hd => absurd hd h1, fun _ e he => ?_⟩
      rw [hrun] at he
      rcases List.mem_cons.mp he with rfl | he
      · rfl
      rcases List.mem_append.mp he with he | he
      · exact spawn_events_no_flag_write _ e he
      · obtain rfl := List.mem_singleton.mp he
        rfl

theorem run_stop_signal_witness :
    (Run cDur).events.head? = some (Event.initFlag true) ∧
    (Run cDur).events.filter isFlagWrite = [Event.storeFlag false] ∧
    (Run cCount).events.filter isFlagWrite = [] :=
  ⟨(run_stop_signal cDur).1 (Or.inl (by decide)),
   ((run_stop_signal cDur).2.1 (by decide)).1,
   List.filter_eq_nil_iff.mpr (fun e he => by
     simpa using (run_stop_signal cCount).2.2 (by decide) e he)⟩

/-- C4: on every valid configuration Run reports no error and its last
coordinator action is the wait-group join: every spawn happens before
the join, and in duration mode the store of the stop flag also happens
before the join, so Run returns only after every spawned worker has
terminated. -/
theorem run_waits_for_workers (c : Config) (hv : 0 < c.Duration ∨ 0 < c.Traces) :
    (Run c).err = none ∧
    ∃ body, (Run c).events = body ++ [Event.wait] ∧
      (∀ w ∈ (Run c).spawned, Event.spawn w ∈ body) ∧
      (0 < c.Duration → Event.storeFlag false ∈ body) := by
  by_cases h1 : 0 < c.Duration
  · refine ⟨by simp [Run, h1],
      Event.initFlag true :: ((spawnedWorkers { c with Traces := 0 }).map Event.spawn
        ++ [Event.sleep c.Duration, Event.storeFlag false]), ?_, ?_, fun _ => by simp⟩
    · simp [Run, h1]
    · intro w hw
      have hsp : (Run c).spawned = spawnedWorkers { c with Traces := 0 } := by
        simp [Run, h1]
      rw [hsp] at hw
      exact List.mem_cons_of_mem _ (List.mem_append_left _ (List.mem_map_of_mem _ hw))
  · have h2 : ¬ c.Traces ≤ 0 := by rcases hv with h | h <;> omega
    refine ⟨by simp [Run, h1, h2],
      Event.initFlag true :: (spawnedWorkers c).map Event.spawn, ?_, ?_,
      fun hd => absurd hd h1⟩
    · simp [Run, h1, h2]
    · intro w hw
      have hsp : (Run c).spawned = spawnedWorkers c := by simp [Run, h1, h2]
      rw [hsp] at hw
      exact List.mem_cons_of_mem _ (List.mem_map_of_mem _ hw)

theorem run_waits_for_workers_witness :
    (Run cDur).err = none ∧ (Run cDur).events.getLast? = some Event.wait := by
  obtain ⟨body, hb, -, -⟩ := (run_waits_for_workers cDur (Or.inl (by decide))).2
  exact ⟨(run_waits_for_workers cDur (Or.inl (by decide))).1, by rw [hb]; simp⟩

/-- C6: the worker loop checks its condition before each iteration and
continues while (plannedIterations = 0 and the shared flag is true) or
(the iteration counter is below plannedIterations): a count-mode worker
(positive planned count) emits exactly its planned number of traces,
with the same result under any two flag schedules; a duration-mode
worker (planned count 0) whose flag schedule first reads false at the
k-th check emits exactly k traces. -/
theorem worker_loop_policy (w v : Worker) (flag flag' : Nat → Bool) (fuel k : Nat) :
    (0 < w.traces → w.traces.toNat ≤ fuel →
      simulateTraces w flag fuel 0 = List.replicate w.traces.toNat (emitOneTrace w) ∧
      simulateTraces w flag fuel 0 = simulateTraces w flag' fuel 0) ∧
    (v.traces = 0 → (∀ j, j < k → flag j = true) → flag k = false → k < fuel →
      simulateTraces v flag fuel 0 = List.replicate k (emitOneTrace v)) := by
  constructor
  · intro hpos hf
    have h1 := simulateTraces_count_mode w flag (by omega) fuel 0 (by simpa using hf)
    have h2 := simulateTraces_count_mode w flag' (by omega) fuel 0 (by simpa using hf)
    simp only [Nat.sub_zero] at h1 h2
    exact ⟨h1, h1.trans h2.symm⟩
  · intro hv htrue hfalse hk
    exact simulateTraces_duration_mode v flag hv k 0 fuel
      (fun j hj => by simpa using htrue j hj) (by simpa using hfalse) hk

theorem worker_loop_policy_witness :
    (simulateTraces wCountEx (fun j => decide (j < 2)) 5 0
        = List.replicate wCountEx.traces.toNat (emitOneTrace wCountEx) ∧
      simulateTraces wCountEx (fun j => decide (j < 2)) 5 0
        = simulateTraces wCountEx (fun _ => false) 5 0) ∧
    simulateTraces wDurEx (fun j => decide (j < 2)) 5 0
        = List.replicate 2 (emitOneTrace wDurEx) :=
  ⟨(worker_loop_policy wCountEx wDurEx (fun j => decide (j < 2)) (fun _ => false) 5 2).1
      (by decide) (by decide),
   (worker_loop_policy wCountEx wDurEx (fun j => decide (j < 2)) (fun _ => false) 5 2).2
      (by decide) (fun j hj => decide_eq_true hj) (by decide) (by decide)⟩

/-- C7: on every valid configuration with Workers = W >= 0, Run spawns
exactly W workers, the i-th bound to the zero-based identity i, the
normalized per-worker trace count, the marshal, debug and firehose
flags, the pause and total duration, and a logger annotated with the
worker's identity (the tracer, stop flag and wait group being the
run-wide shared ones). -/
theorem run_spawn_binding (c : Config) (hv : 0 < c.Duration ∨ 0 < c.Traces)
    (hW : 0 ≤ c.Workers) :
    ((Run c).spawned.length : Int) = c.Workers ∧
    ∀ i : Nat, i < (Run c).spawned.length →
      (Run c).spawned[i]? =
        some { id := (i : Int), traces := (Run c).finalConfig.Traces, marshal := c.Marshal,
               debug := c.Debug, firehose := c.Firehose, pause := c.Pause,
               duration := c.Duration, loggerWorker := (i : Int) } := by
  by_cases h1 : 0 < c.Duration
  · have hsp : (Run c).spawned = spawnedWorkers { c with Traces := 0 } := by
      simp [Run, h1]
    constructor
    · rw [hsp, spawnedWorkers_length]
      exact Int.toNat_of_nonneg hW
    · intro i hi
      have hfc : (Run c).finalConfig.Traces = 0 := by simp [Run, h1]
      rw [hsp] at hi ⊢
      rw [spawnedWorkers_length] at hi
      rw [hfc]
      unfold spawnedWorkers
      rw [List.getElem?_map, List.getElem?_range hi]
      rfl
  · have h2 : ¬ c.Traces ≤ 0 := by rcases hv with h | h <;> omega
    have hsp : (Run c).spawned = spawnedWorkers c := by simp [Run, h1, h2]
    constructor
    · rw [hsp, spawnedWorkers_length]
      exact Int.toNat_of_nonneg hW
    · intro i hi
      have hfc : (Run c).finalConfig.Traces = c.Traces := by simp [Run, h1, h2]
      rw [hsp] at hi ⊢
      rw [spawnedWorkers_length] at hi
      rw [hfc]
      unfold spawnedWorkers
      rw [List.getElem?_map, List.getElem?_range hi]
      rfl

theorem run_spawn_binding_witness :
    ((Run cDur).spawned.length : Int) = cDur.Workers ∧
    (Run cDur).spawned[1]? =
      some { id := 1, traces := (Run cDur).finalConfig.Traces, marshal := cDur.Marshal,
             debug := cDur.Debug, firehose := cDur.Firehose, pause := cDur.Pause,
             duration := cDur.Duration, loggerWorker := 1 } :=
  ⟨(run_spawn_binding cDur (Or.inl (by decide)) (by decide)).1,
   (run_spawn_binding cDur (Or.inl (by decide)) (by decide)).2 1 (by decide)⟩

/-- C8: Config.Flags registers exactly eight command-line options, named
workers (default 1), traces (default 1), debug (default false), firehose
(default false), pause (default 1 microsecond), duration (default 0),
service (default "tracegen") and trace-exporter (default "jaeger"), and
registers none for the Marshal field, which an empty command line
therefore leaves at whatever value it had (its zero value false unless
set programmatically). -/
theorem flags_registration (c : Config) :
    Config.flagsRegistered.length = 8 ∧
    Config.flagsRegistered.map Prod.fst
      = ["workers", "traces", "debug", "firehose", "pause", "duration",
         "service", "trace-exporter"] ∧
    (∀ p ∈ Config.flagsRegistered, p.1 ≠ "marshal") ∧
    Config.applyFlagDefaults c
      = { Workers := 1, Traces := 1, Marshal := c.Marshal, Debug := false, Firehose := false,
          Pause := microsecond, Duration := 0, Service := "tracegen",
          TraceExporter := "jaeger" } ∧
    (Config.applyFlagDefaults c).Marshal = c.Marshal := by
  refine ⟨rfl, rfl, by decide, rfl, rfl⟩

theorem flags_registration_witness :
    Config.applyFlagDefaults cBad
      = { Workers := 1, Traces := 1, Marshal := false, Debug := false, Firehose := false,
          Pause := microsecond, Duration := 0, Service := "tracegen",
          TraceExporter := "jaeger" } :=
  (flags_registration cBad).2.2.2.1

/-- C10: every configuration with Workers <= 0 that passes validation
makes Run spawn zero workers and report no error; in duration mode the
coordinator still sleeps for the full Duration before returning, and in
count mode the coordinator only initializes the flag and joins, with no
trace emitted. -/
theorem run_zero_workers (c : Config) (hW : c.Workers ≤ 0)
    (hv : 0 < c.Duration ∨ 0 < c.Traces) :
    (Run c).err = none ∧ (Run c).spawned = [] ∧
    (0 < c.Duration → Event.sleep c.Duration ∈ (Run c).events) ∧
    (c.Duration ≤ 0 →
      (Run c).events = [Event.initFlag true, Event.wait] ∧
      ∀ flag fuel, runEmitted c flag fuel = []) := by
  have hws : c.Workers.toNat = 0 := by omega
  have hsp : ∀ c' : Config, c'.Workers = c.Workers → spawnedWorkers c' = [] := by
    intro c' h
    simp [spawnedWorkers, h, hws]
  by_cases h1 : 0 < c.Duration
  · refine ⟨by simp [Run, h1], ?_, fun _ => by simp [Run, h1],
      fun hd => absurd h1 (by omega)⟩
    simp [Run, h1, hsp { c with Traces := 0 } rfl]
  · have h2 : ¬ c.Traces ≤ 0 := by rcases hv with h | h <;> omega
    refine ⟨by simp [Run, h1, h2], by simp [Run, h1, h2, hsp c rfl],
      fun hd => absurd hd h1, fun _ => ⟨?_, ?_⟩⟩
    · simp [Run, h1, h2, hsp c rfl]
    · intro flag fuel
      simp [runEmitted, Run, h1, h2, hsp c rfl]

theorem run_zero_workers_witness :
    ((Run cNoW).err = none ∧ (Run cNoW).spawned = [] ∧
      (Run cNoW).events = [Event.initFlag true, Event.wait] ∧
      runEmitted cNoW (fun _ => true) 7 = []) ∧
    ((Run cNoWDur).spawned = [] ∧ Event.sleep cNoWDur.Duration ∈ (Run cNoWDur).events) := by
  have h1 := run_zero_workers cNoW (by decide) (Or.inr (by decide))
  have h2 := run_zero_workers cNoWDur (by decide) (Or.inl (by decide))
  exact ⟨⟨h1.1, h1.2.1, (h1.2.2.2 (by decide)).1, (h1.2.2.2 (by decide)).2 (fun _ => true) 7⟩,
    ⟨h2.2.1, h2.2.2.1 (by decide)⟩⟩

end Tracegen
